import Mathlib

/-!
# Verification of the liquidity-service core

Shallow embedding of the slippage search engine (`src/utils/slippage.ts`),
the liquidity orchestrator's aggregation and reserve checks
(`services/liquidityService.ts`), and the bounded freshness cache
(`src/utils/cache.ts`), together with theorems settling the spec claims.

Modelling conventions:
* `ethers.BigNumber` values are modelled as `Nat` where the source keeps them
  non-negative (reserves, trade amounts, spot/effective prices), and as `Int`
  where the source can produce negative values (`priceImpactBP`).
  `BigNumber.div` truncates toward zero; on `Nat` that is `/`, on `Int` it is
  `Int.tdiv`.
* The oracle `router.getAmountsOut` (with timeout wrapper and final-element
  extraction) is modelled as a function `Nat → Option Nat`: `none` is any
  rejection (RPC failure or timeout), `some out` the final amount of the
  returned array.  A thrown error anywhere inside the loop's `try` block
  (including `BigNumber` division by zero when the spot price is zero and
  `toNumber()` overflow past 2^53) lands in the `catch` branch, which the
  embedding reproduces explicitly.
* JavaScript numbers used by the source for the slippage target are modelled
  as exact rationals; for the production targets 0.01, 0.05 and 0.1 the JS
  double computations `Math.floor(t * 10000)` and `t >= 0.1` agree exactly
  with the rational ones.
* Quotes are kept as raw integer amounts (`mid`, `amountOut`); the source's
  final `formatUnits` rendering to a decimal string is a strictly monotone
  injective presentation of these integers and is not modelled.
-/

/-- 18-decimal fixed-point scale used by the source (`parseUnits('1', 18)`). -/
def PRECISION_BASE : Nat := 10 ^ 18

/-- A slippage quote, in raw (unformatted) integer units:
`sellAmount` is the chosen trade size `mid`, `buyAmount` the oracle output. -/
structure SlippageQuote where
  sellAmount : Nat
  buyAmount : Nat
deriving DecidableEq

/-- The price-impact computation of `slippage.ts` lines 70–74 for a trade of
`amountIn` returning `amountOut`, against `spotPrice`:
`(spotPrice - amountOut*PB/amountIn) * 10000 / spotPrice`, all `BigNumber`
divisions truncating toward zero. -/
def impactBPOf (spotPrice amountIn amountOut : Nat) : Int :=
  Int.tdiv (((spotPrice : Int) - ((amountOut * PRECISION_BASE / amountIn : Nat) : Int)) * 10000)
    (spotPrice : Int)

/-- `diffBP < bestDiffBP` where `none` models the initial
`Number.POSITIVE_INFINITY`. -/
def improvesBest (diffBP : Nat) : Option Nat → Bool
  | none => true
  | some b => diffBP < b

/-- The binary-search loop of `calculateSlippageQuote` (`slippage.ts` lines
48–102), with an explicit fuel counter standing for the remaining iterations
of `for (let i = 0; i < 15 && low.lte(high); i++)`.  Returns the final
`bestResult` together with the number of oracle (`getAmountsOut`) calls that
were issued.  The `catch` branch of the source — taken on oracle rejection,
on division by zero when `spotPrice = 0`, and on `toNumber()` overflow when
`|priceImpactBP| ≥ 2^53` — shrinks `high` to `mid - 1` exactly as the code
does. -/
def searchLoop (qf : Nat → Option Nat) (reserveSell spotPrice : Nat) (targetBP : Int) :
    Nat → Nat → Nat → Option SlippageQuote → Option Nat → Option SlippageQuote × Nat
  | 0, _, _, best, _ => (best, 0)
  | fuel + 1, low, high, best, bestDiff =>
    if low ≤ high then
      let mid := (low + high) / 2
      if mid = 0 ∨ reserveSell / 2 ≤ mid then
        searchLoop qf reserveSell spotPrice targetBP fuel low (mid - 1) best bestDiff
      else
        match qf mid with
        | none =>
          let r := searchLoop qf reserveSell spotPrice targetBP fuel low (mid - 1) best bestDiff
          (r.1, r.2 + 1)
        | some amountOut =>
          if amountOut = 0 then
            let r := searchLoop qf reserveSell spotPrice targetBP fuel low (mid - 1) best bestDiff
            (r.1, r.2 + 1)
          else if spotPrice = 0 then
            let r := searchLoop qf reserveSell spotPrice targetBP fuel low (mid - 1) best bestDiff
            (r.1, r.2 + 1)
          else
            let priceImpactBP := impactBPOf spotPrice mid amountOut
            if 2 ^ 53 ≤ priceImpactBP.natAbs then
              let r := searchLoop qf reserveSell spotPrice targetBP fuel low (mid - 1) best bestDiff
              (r.1, r.2 + 1)
            else
              let diffBP := (priceImpactBP - targetBP).natAbs
              if diffBP ≤ 50 then (some ⟨mid, amountOut⟩, 1)
              else
                let best1 := if improvesBest diffBP bestDiff then some (⟨mid, amountOut⟩ : SlippageQuote) else best
                let bestDiff1 := if improvesBest diffBP bestDiff then some diffBP else bestDiff
                if priceImpactBP < targetBP then
                  let r := searchLoop qf reserveSell spotPrice targetBP fuel (mid + 1) high best1 bestDiff1
                  (r.1, r.2 + 1)
                else
                  let r := searchLoop qf reserveSell spotPrice targetBP fuel low (mid - 1) best1 bestDiff1
                  (r.1, r.2 + 1)
    else (best, 0)

deriving instance DecidableEq for Except

/-- Error message of `slippage.ts` line 30. -/
def zeroReservesMsg : String := "Reserve amounts are zero - cannot calculate price"

/-- Error thrown by `ethers.utils.parseUnits('0.001', d)` when `d < 3`. -/
def parseUnitsErrMsg : String := "fractional component exceeds decimals"

/-- Decimal rendering of a JS number that is an exact integer (the only shape
the source ever feeds into this template). -/
def jsNumToString (q : ℚ) : String :=
  if q.den = 1 then toString q.num else toString q

/-- Error message of `slippage.ts` lines 105–107 (`NoQuoteFound`). -/
def noQuoteFoundMsg (targetSlippage : ℚ) : String :=
  "Could not calculate quote for " ++ jsNumToString (targetSlippage * 100) ++ "% slippage"

/-- The tail of `calculateSlippageQuote`: run the search from the given
bounds with the given basis-point target, then either return `bestResult` or
fail with the `NoQuoteFound` message.  The call count of the search is
carried alongside.  All arithmetic here is integer arithmetic; the only
JS-number computations of the source (`Math.floor(targetSlippage * 10000)`
and `targetSlippage >= 0.1`) happen in the caller. -/
def searchOutcome (qf : Nat → Option Nat) (reserveSell reserveBuy : Nat)
    (targetSlippageBP : Int) (noQuoteMsg : String) (low high : Nat) :
    Except String SlippageQuote × Nat :=
  let spotPrice := reserveBuy * PRECISION_BASE / reserveSell
  let r := searchLoop qf reserveSell spotPrice targetSlippageBP 15 low high none none
  (match r.1 with
   | some q => Except.ok q
   | none => Except.error noQuoteMsg, r.2)

/-- `calculateSlippageQuote` of `slippage.ts` lines 16–111, paired with the
number of oracle calls performed.  `targetSlippage` is the target impact
fraction, `sellTokenDecimals` the sell token's decimal count. -/
def calculateSlippageQuoteAux (qf : Nat → Option Nat) (reserveSell reserveBuy : Nat)
    (targetSlippage : ℚ) (sellTokenDecimals : Nat) : Except String SlippageQuote × Nat :=
  if reserveSell = 0 ∨ reserveBuy = 0 then (Except.error zeroReservesMsg, 0)
  else if sellTokenDecimals < 3 then (Except.error parseUnitsErrMsg, 0)
  else
    let minTradeAmount := 10 ^ (sellTokenDecimals - 3)
    let maxTradePercent : Nat := if (1 : ℚ)/10 ≤ targetSlippage then 60 else 20
    let maxTradeAmount := reserveSell * maxTradePercent / 100
    searchOutcome qf reserveSell reserveBuy ⌊targetSlippage * 10000⌋
      (noQuoteFoundMsg targetSlippage) minTradeAmount maxTradeAmount

/-- The quote (or error) returned by `calculateSlippageQuote`. -/
def calculateSlippageQuote (qf : Nat → Option Nat) (reserveSell reserveBuy : Nat)
    (targetSlippage : ℚ) (sellTokenDecimals : Nat) : Except String SlippageQuote :=
  (calculateSlippageQuoteAux qf reserveSell reserveBuy targetSlippage sellTokenDecimals).1

/-- How many `router.getAmountsOut` calls a `calculateSlippageQuote` run issues. -/
def slippageOracleCalls (qf : Nat → Option Nat) (reserveSell reserveBuy : Nat)
    (targetSlippage : ℚ) (sellTokenDecimals : Nat) : Nat :=
  (calculateSlippageQuoteAux qf reserveSell reserveBuy targetSlippage sellTokenDecimals).2

/-- The synthetic constant-product oracle used by the spec's property test:
`amountOut = amountIn * reserveBuy / (reserveSell + amountIn)`. -/
def cpOracle (reserveSell reserveBuy : Nat) (amountIn : Nat) : Option Nat :=
  some (amountIn * reserveBuy / (reserveSell + amountIn))

example : calculateSlippageQuote (fun m => some m) 1000000 1000000 (1/10) 3 =
    Except.ok ⟨300000, 300000⟩ := by
  unfold calculateSlippageQuote calculateSlippageQuoteAux
  norm_num
  decide
example : calculateSlippageQuote (cpOracle 146112 184) 146112 184 (1/100) 3 =
    Except.ok ⟨3652, 4⟩ := by
  unfold calculateSlippageQuote calculateSlippageQuoteAux
  norm_num
  decide

/-! ## Liquidity orchestrator: aggregation of the three slippage searches

`LiquidityService.getLiquidityQuotes` launches the three searches with
`Promise.allSettled`, which waits for all of them regardless of individual
failures.  The embedding therefore takes the three settled results as
inputs; a rejected promise is `Except.error msg` where `msg` is the thrown
error's message (`""` modelling a missing/falsy `reason?.message`). -/

/-- One entry of the orchestrator's `errors` array:
``` `${slippageLevels[index] * 100}%: ${quote.reason?.message || 'Unknown error'}` ```.
For the fixed levels 0.01, 0.05, 0.1 the JS double products print as
`1`, `5`, `10`, which are supplied as the `label` argument. -/
def levelErrorEntry (label msg : String) : String :=
  label ++ "%: " ++ (if msg = "" then "Unknown error" else msg)

/-- The orchestrator's `errors` array: one formatted entry per rejected
slippage level, in level order. -/
def collectLevelErrors (results : List (String × Except String SlippageQuote)) : List String :=
  results.filterMap fun p =>
    match p.2 with
    | Except.error m => some (levelErrorEntry p.1 m)
    | Except.ok _ => none

/-- The fan-in of `getLiquidityQuotes` (`liquidityService.ts` lines 108–138):
given the three settled search results, either all three quotes or the
combined error. -/
def aggregateQuotes (r1 r5 r10 : Except String SlippageQuote) :
    Except String (SlippageQuote × SlippageQuote × SlippageQuote) :=
  let errs := collectLevelErrors [("1", r1), ("5", r5), ("10", r10)]
  match r1, r5, r10 with
  | Except.ok a, Except.ok b, Except.ok c => Except.ok (a, b, c)
  | _, _, _ =>
    Except.error
      (if errs.isEmpty then "Failed to calculate slippage quotes"
       else "Failed to calculate slippage quotes. Errors: " ++ String.intercalate ", " errs)

/-- Modelled from the spec: "combined error message listing each failed
level and its individual error text", "joined by `\x22, \x22`" — the list of
per-level failure texts, written directly from the spec's words. -/
def specFailedEntries (r1 r5 r10 : Except String SlippageQuote) : List String :=
  (match r1 with
   | Except.error m => [levelErrorEntry "1" m]
   | Except.ok _ => []) ++
  (match r5 with
   | Except.error m => [levelErrorEntry "5" m]
   | Except.ok _ => []) ++
  (match r10 with
   | Except.error m => [levelErrorEntry "10" m]
   | Except.ok _ => [])

/-! ## Liquidity orchestrator: reserve sanity checks

The pure tail of `LiquidityService.getTokenReserves` (`liquidityService.ts`
lines 173–233), once the RPC reads have produced `reserve0`, `reserve1` and
the two decimal counts.  `sellIsToken0` is
`sellToken.toLowerCase() === token0.toLowerCase()`. -/

/-- Error messages of the reserve checks (pair-specific parts elided). -/
def zeroPoolReservesMsg : String := "Liquidity pool has zero reserves"

/-- `Insufficient liquidity for reliable pricing` error. -/
def insufficientLiquidityMsg : String := "Insufficient liquidity for reliable pricing"

/-- `Pool depth too low for reliable pricing` error. -/
def poolDepthMsg : String := "Pool depth too low for reliable pricing"

/-- `MIN_RESERVE_i`: the larger of `parseUnits('0.001', d) = 10^(d-3)`
(defined for `d ≥ 3`) and `BigNumber.from(10).pow(d).div(1000)`. -/
def minReserveFloor (decimals : Nat) : Nat :=
  max (10 ^ (decimals - 3)) (10 ^ decimals / 1000)

/-- The reserve sanity checks of `getTokenReserves`: zero-reserve check,
minimum-reserve floors, and the pool-depth check
(`testTradeSize = reserve0.div(1000)` must not be below
`MIN_RESERVE_0.mul(10)`), followed by the reorder into
`(reserveSell, reserveBuy)`. -/
def checkReserves (reserve0 reserve1 d0 d1 : Nat) (sellIsToken0 : Bool) :
    Except String (Nat × Nat) :=
  if reserve0 = 0 ∨ reserve1 = 0 then Except.error zeroPoolReservesMsg
  else if d0 < 3 ∨ d1 < 3 then Except.error parseUnitsErrMsg
  else if reserve0 < minReserveFloor d0 ∨ reserve1 < minReserveFloor d1 then
    Except.error insufficientLiquidityMsg
  else if reserve0 / 1000 < minReserveFloor d0 * 10 then Except.error poolDepthMsg
  else Except.ok (if sellIsToken0 then (reserve0, reserve1) else (reserve1, reserve0))

/-! ## Bounded freshness cache (`src/utils/cache.ts`)

The JS `Map` is modelled as an association list in insertion order, which is
the iteration order of a `Map`.  `Date.now()` is passed explicitly as `now`.
Updating an existing key keeps its position; deletion removes the binding;
appending inserts at the end — exactly the `Map` semantics the source relies
on.  `Array.prototype.sort` is stable, modelled by a stable insertion sort. -/

/-- A cache entry (`CacheEntry<T>` of `cache.ts`). -/
structure CacheEntry (T : Type) where
  data : T
  timestamp : Nat
  lastAccessed : Nat
deriving DecidableEq

/-- The cache state: capacity, time-to-live, and the `Map` contents in
insertion order. -/
structure SimpleCache (T : Type) where
  maxSize : Nat
  ttl : Nat
  cache : List (String × CacheEntry T)
deriving DecidableEq

/-- `Map.get`: the entry bound to `key`, if present. -/
def findEntry {T : Type} : List (String × CacheEntry T) → String → Option (CacheEntry T)
  | [], _ => none
  | kv :: rest, key => if kv.1 = key then some kv.2 else findEntry rest key

/-- `Map.has`. -/
def hasKey {T : Type} (l : List (String × CacheEntry T)) (key : String) : Bool :=
  (findEntry l key).isSome

/-- `Map.delete`: remove the binding of `key`, keeping the order of the rest. -/
def eraseKey {T : Type} (l : List (String × CacheEntry T)) (key : String) :
    List (String × CacheEntry T) :=
  l.filter fun kv => decide (kv.1 ≠ key)

/-- `Map.set` on a key that is already present: replace the value in place,
keeping the key's position. -/
def replaceKey {T : Type} (l : List (String × CacheEntry T)) (key : String)
    (e : CacheEntry T) : List (String × CacheEntry T) :=
  l.map fun kv => if kv.1 = key then (key, e) else kv

/-- `entry.lastAccessed = now` on the entry bound to `key`. -/
def touchKey {T : Type} (l : List (String × CacheEntry T)) (key : String) (now : Nat) :
    List (String × CacheEntry T) :=
  l.map fun kv =>
    if kv.1 = key then (kv.1, { kv.2 with lastAccessed := now }) else kv

/-- Stable insertion of one entry into a list sorted by `lastAccessed`
ascending: an entry goes before the first strictly-or-equally later one, so
entries with equal `lastAccessed` keep their original relative order, as
JavaScript's stable `sort` does. -/
def insertLA {T : Type} (x : String × CacheEntry T) :
    List (String × CacheEntry T) → List (String × CacheEntry T)
  | [] => [x]
  | y :: ys =>
    if x.2.lastAccessed ≤ y.2.lastAccessed then x :: y :: ys else y :: insertLA x ys

/-- Stable sort by `lastAccessed` ascending
(`entries.sort((a, b) => a[1].lastAccessed - b[1].lastAccessed)`). -/
def sortLA {T : Type} : List (String × CacheEntry T) → List (String × CacheEntry T)
  | [] => []
  | x :: xs => insertLA x (sortLA xs)

/-- `SimpleCache.makeRoom` (`cache.ts` lines 57–79): purge entries past
their time-to-live; if the store still holds at least `maxSize` entries,
delete the first `Math.max(1, Math.floor(maxSize * 0.25))` entries of the
list sorted by `lastAccessed` ascending (`0.25` is exact in binary floating
point, so the count is `max 1 (maxSize / 4)`).  Survivors keep their `Map`
order. -/
def SimpleCache.makeRoom {T : Type} (c : SimpleCache T) (now : Nat) : SimpleCache T :=
  let purged := c.cache.filter fun kv => decide (now - kv.2.timestamp ≤ c.ttl)
  if c.maxSize ≤ purged.length then
    let sorted := sortLA purged
    let toRemove := max 1 (c.maxSize / 4)
    let victims := (sorted.take toRemove).map Prod.fst
    ⟨c.maxSize, c.ttl, purged.filter fun kv => decide (kv.1 ∉ victims)⟩
  else ⟨c.maxSize, c.ttl, purged⟩

/-- `SimpleCache.get` (`cache.ts` lines 12–25): returns the stored value and
the successor cache state (lazy expiry deletes; a hit refreshes
`lastAccessed`). -/
def SimpleCache.get {T : Type} (c : SimpleCache T) (key : String) (now : Nat) :
    Option T × SimpleCache T :=
  match findEntry c.cache key with
  | none => (none, c)
  | some entry =>
    if c.ttl < now - entry.timestamp then
      (none, ⟨c.maxSize, c.ttl, eraseKey c.cache key⟩)
    else
      (some entry.data, ⟨c.maxSize, c.ttl, touchKey c.cache key now⟩)

/-- `SimpleCache.set` (`cache.ts` lines 27–47). -/
def SimpleCache.set {T : Type} (c : SimpleCache T) (key : String) (data : T) (now : Nat) :
    SimpleCache T :=
  if hasKey c.cache key then
    ⟨c.maxSize, c.ttl, replaceKey c.cache key ⟨data, now, now⟩⟩
  else
    let c2 := if c.maxSize ≤ c.cache.length then SimpleCache.makeRoom c now else c
    ⟨c.maxSize, c.ttl, c2.cache ++ [(key, ⟨data, now, now⟩)]⟩

/-- `SimpleCache.size`. -/
def SimpleCache.size {T : Type} (c : SimpleCache T) : Nat :=
  c.cache.length

/-- `SimpleCache.clear`. -/
def SimpleCache.clear {T : Type} (c : SimpleCache T) : SimpleCache T :=
  ⟨c.maxSize, c.ttl, []⟩

/-- One client-visible cache operation, with its `Date.now()` value. -/
inductive CacheOp (T : Type) where
  | setOp (key : String) (data : T) (now : Nat)
  | getOp (key : String) (now : Nat)
  | clearOp

/-- Apply one operation to the cache state. -/
def applyOp {T : Type} (c : SimpleCache T) : CacheOp T → SimpleCache T
  | CacheOp.setOp key data now => c.set key data now
  | CacheOp.getOp key now => (c.get key now).2
  | CacheOp.clearOp => c.clear

/-- Run a sequence of operations from a given state. -/
def runOps {T : Type} (c : SimpleCache T) : List (CacheOp T) → SimpleCache T
  | [] => c
  | op :: rest => runOps (applyOp c op) rest

/-- Modelled from the spec (§4.3 `set`, as amended): if the key exists,
overwrite in place resetting both timestamps; if the key is new and the
store is at or above capacity, first purge all entries already past their
time-to-live; if still at or above capacity, evict the least-recently-
accessed 25% of capacity worth of entries — at least one, but never more
than are present — ranked by `lastAccessedAt` ascending; then insert. -/
def cacheSetSpec {T : Type} (c : SimpleCache T) (key : String) (data : T) (now : Nat) :
    SimpleCache T :=
  if hasKey c.cache key then
    ⟨c.maxSize, c.ttl, replaceKey c.cache key ⟨data, now, now⟩⟩
  else
    let store :=
      if c.cache.length < c.maxSize then c.cache
      else
        let purged := c.cache.filter fun kv => decide (now - kv.2.timestamp ≤ c.ttl)
        if purged.length < c.maxSize then purged
        else
          let evictCount := min purged.length (max 1 (c.maxSize / 4))
          let victims := ((sortLA purged).take evictCount).map Prod.fst
          purged.filter fun kv => decide (kv.1 ∉ victims)
    ⟨c.maxSize, c.ttl, store ++ [(key, ⟨data, now, now⟩)]⟩

/-! ### Cache lemmas -/

theorem length_insertLA {T : Type} (x : String × CacheEntry T) (l : List (String × CacheEntry T)) :
    (insertLA x l).length = l.length + 1 := by
  induction l with
  | nil => rfl
  | cons y ys ih =>
    simp only [insertLA]
    split
    · simp
    · simp [ih]

theorem length_sortLA {T : Type} (l : List (String × CacheEntry T)) :
    (sortLA l).length = l.length := by
  induction l with
  | nil => rfl
  | cons x xs ih => simp [sortLA, length_insertLA, ih]

theorem mem_insertLA {T : Type} {y x : String × CacheEntry T} {l : List (String × CacheEntry T)}
    (h : y ∈ insertLA x l) : y = x ∨ y ∈ l := by
  induction l with
  | nil => simpa [insertLA] using h
  | cons z zs ih =>
    by_cases hc : x.2.lastAccessed ≤ z.2.lastAccessed
    · rw [insertLA, if_pos hc] at h
      exact List.mem_cons.mp h
    · rw [insertLA, if_neg hc] at h
      rcases List.mem_cons.mp h with rfl | h2
      · exact Or.inr (List.mem_cons_self _ _)
      · rcases ih h2 with h3 | h3
        · exact Or.inl h3
        · exact Or.inr (List.mem_cons_of_mem _ h3)

theorem mem_sortLA {T : Type} {y : String × CacheEntry T} {l : List (String × CacheEntry T)}
    (h : y ∈ sortLA l) : y ∈ l := by
  induction l with
  | nil => simp [sortLA] at h
  | cons x xs ih =>
    rcases mem_insertLA h with h | h
    · simp [h]
    · simp [ih h]

theorem length_filter_lt_of_mem {α : Type} {l : List α} {p : α → Bool} {x : α}
    (hx : x ∈ l) (hpx : p x = false) : (l.filter p).length < l.length := by
  induction l with
  | nil => cases hx
  | cons y ys ih =>
    rcases List.mem_cons.mp hx with rfl | hmem
    · simp only [List.filter_cons, hpx]
      exact Nat.lt_succ_of_le (List.length_filter_le p ys)
    · simp only [List.filter_cons]
      split
      · simpa using ih hmem
      · exact Nat.lt_succ_of_lt (ih hmem)

theorem take_min_length {α : Type} (l : List α) (n : Nat) :
    l.take (min l.length n) = l.take n := by
  rcases Nat.le_total l.length n with h | h
  · rw [Nat.min_eq_left h, List.take_length, List.take_of_length_le h]
  · rw [Nat.min_eq_right h]

theorem findEntry_eq_none_iff {T : Type} (l : List (String × CacheEntry T)) (key : String) :
    findEntry l key = none ↔ key ∉ l.map Prod.fst := by
  induction l with
  | nil => simp [findEntry]
  | cons kv rest ih =>
    by_cases h : kv.1 = key
    · simp [findEntry, h]
    · simp only [findEntry, if_neg h, List.map_cons, List.mem_cons, ih]
      constructor
      · rintro hn (rfl | hmem)
        · exact h rfl
        · exact hn hmem
      · intro hn hmem
        exact hn (Or.inr hmem)

theorem keys_replaceKey {T : Type} (l : List (String × CacheEntry T)) (key : String)
    (e : CacheEntry T) : (replaceKey l key e).map Prod.fst = l.map Prod.fst := by
  simp only [replaceKey, List.map_map]
  apply List.map_congr_left
  intro kv _
  by_cases h : kv.1 = key <;> simp [h]

theorem keys_touchKey {T : Type} (l : List (String × CacheEntry T)) (key : String) (now : Nat) :
    (touchKey l key now).map Prod.fst = l.map Prod.fst := by
  simp only [touchKey, List.map_map]
  apply List.map_congr_left
  intro kv _
  by_cases h : kv.1 = key <;> simp [h]

theorem length_replaceKey {T : Type} (l : List (String × CacheEntry T)) (key : String)
    (e : CacheEntry T) : (replaceKey l key e).length = l.length := by
  simp [replaceKey]

theorem length_touchKey {T : Type} (l : List (String × CacheEntry T)) (key : String)
    (now : Nat) : (touchKey l key now).length = l.length := by
  simp [touchKey]

theorem makeRoom_cache_sublist {T : Type} (c : SimpleCache T) (now : Nat) :
    (c.makeRoom now).cache.Sublist c.cache := by
  simp only [SimpleCache.makeRoom]
  split
  · exact ((c.cache.filter _).filter_sublist).trans (c.cache.filter_sublist)
  · exact c.cache.filter_sublist

theorem makeRoom_maxSize {T : Type} (c : SimpleCache T) (now : Nat) :
    (c.makeRoom now).maxSize = c.maxSize := by
  simp only [SimpleCache.makeRoom]
  split <;> rfl

/-- When the cache holds between one and `maxSize` entries (inclusive) and
`1 ≤ maxSize ≤ length`, `makeRoom` strictly shrinks below `maxSize`:
either the purge already did, or at least the least-recently-accessed
entry is evicted. -/
theorem makeRoom_length_lt {T : Type} (c : SimpleCache T) (now : Nat)
    (hcap : 1 ≤ c.maxSize) (hlen : c.cache.length ≤ c.maxSize) :
    (c.makeRoom now).cache.length < c.maxSize := by
  simp only [SimpleCache.makeRoom]
  set purged := c.cache.filter fun kv => decide (now - kv.2.timestamp ≤ c.ttl) with hpurged
  have hple : purged.length ≤ c.maxSize :=
    le_trans (List.length_filter_le _ _) hlen
  split
  · next hfull =>
    have hsl : (sortLA purged).length = purged.length := length_sortLA purged
    have hpos : 0 < (sortLA purged).length := by omega
    obtain ⟨z, zs, hz⟩ : ∃ z zs, sortLA purged = z :: zs := by
      cases hsort : sortLA purged with
      | nil => rw [hsort] at hpos; simp at hpos
      | cons z zs => exact ⟨z, zs, rfl⟩
    have hzmem : z ∈ purged := mem_sortLA (by rw [hz]; exact List.mem_cons_self _ _)
    have hzvict : z.1 ∈ ((sortLA purged).take (max 1 (c.maxSize / 4))).map Prod.fst := by
      have h1 : 1 ≤ max 1 (c.maxSize / 4) := le_max_left _ _
      cases hmax : max 1 (c.maxSize / 4) with
      | zero => omega
      | succ n =>
        rw [hz, List.take_succ_cons]
        exact List.mem_map_of_mem _ (List.mem_cons_self _ _)
    have hfalse :
        (fun kv : String × CacheEntry T =>
          decide (kv.1 ∉ ((sortLA purged).take (max 1 (c.maxSize / 4))).map Prod.fst)) z
          = false :=
      decide_eq_false fun hcon => hcon hzvict
    exact lt_of_lt_of_le (length_filter_lt_of_mem hzmem hfalse) hple
  · next hnotfull =>
    show purged.length < c.maxSize
    omega

theorem findEntry_replaceKey_self {T : Type} {l : List (String × CacheEntry T)} {key : String}
    (e : CacheEntry T) (h : hasKey l key = true) :
    findEntry (replaceKey l key e) key = some e := by
  induction l with
  | nil => simp [hasKey, findEntry] at h
  | cons kv rest ih =>
    by_cases hkv : kv.1 = key
    · simp [replaceKey, findEntry, hkv]
    · have hrest : hasKey rest key = true := by
        simpa [hasKey, findEntry, hkv] using h
      simpa [replaceKey, findEntry, hkv] using ih hrest

theorem findEntry_append_of_none {T : Type} {l : List (String × CacheEntry T)} {key : String}
    (l2 : List (String × CacheEntry T)) (h : findEntry l key = none) :
    findEntry (l ++ l2) key = findEntry l2 key := by
  induction l with
  | nil => rfl
  | cons kv rest ih =>
    by_cases hkv : kv.1 = key
    · simp [findEntry, hkv] at h
    · simp only [findEntry, hkv, if_false, List.cons_append] at h ⊢
      exact ih h

theorem findEntry_touchKey_self {T : Type} {l : List (String × CacheEntry T)} {key : String}
    {e : CacheEntry T} (now : Nat) (h : findEntry l key = some e) :
    findEntry (touchKey l key now) key = some { e with lastAccessed := now } := by
  induction l with
  | nil => simp [findEntry] at h
  | cons kv rest ih =>
    by_cases hkv : kv.1 = key
    · simp only [findEntry] at h
      rw [if_pos hkv] at h
      obtain rfl : kv.2 = e := by injection h
      simp [touchKey, findEntry, hkv]
    · simp only [findEntry, hkv, if_false] at h
      simpa [touchKey, findEntry, hkv] using ih h

/-- Claim C5 (amended): `set` implements exactly the spec's recipe — an
existing key is overwritten in place with both timestamps reset and no
eviction; a new key when the store is at or above capacity first purges all
expired entries and, if still at or above capacity, evicts the
least-recently-accessed `max(1, ⌊capacity/4⌋)` entries (clamped to the
number present — the counterexample shows zero can be evicted from an empty
zero-capacity store), ranked by `lastAccessedAt` ascending, before
inserting.  This is the refinement equation between the source embedding
and the spec-modelled recipe `cacheSetSpec`. -/
theorem set_eq_cacheSetSpec {T : Type} (c : SimpleCache T) (key : String) (data : T)
    (now : Nat) : SimpleCache.set c key data now = cacheSetSpec c key data now := by
  have hmin :
      ∀ l : List (String × CacheEntry T),
        (sortLA l).take (min l.length (max 1 (c.maxSize / 4)))
          = (sortLA l).take (max 1 (c.maxSize / 4)) := by
    intro l
    rw [← length_sortLA l, take_min_length]
  simp only [SimpleCache.set, cacheSetSpec, SimpleCache.makeRoom]
  by_cases hk : hasKey c.cache key
  · simp [hk]
  · rw [if_neg hk, if_neg hk]
    by_cases hfull : c.maxSize ≤ c.cache.length
    · rw [if_pos hfull, if_neg (by omega : ¬ c.cache.length < c.maxSize)]
      by_cases hp : c.maxSize ≤
          (c.cache.filter fun kv => decide (now - kv.2.timestamp ≤ c.ttl)).length
      · rw [if_pos hp,
          if_neg (by omega :
            ¬ (c.cache.filter fun kv => decide (now - kv.2.timestamp ≤ c.ttl)).length
              < c.maxSize),
          hmin]
      · rw [if_neg hp,
          if_pos (by omega :
            (c.cache.filter fun kv => decide (now - kv.2.timestamp ≤ c.ttl)).length
              < c.maxSize)]
    · rw [if_neg hfull, if_pos (by omega : c.cache.length < c.maxSize)]

/-- The reachable-state invariant of the cache: distinct keys (a `Map`
cannot hold duplicates) and occupancy at most `maxSize`. -/
def CacheInv {T : Type} (c : SimpleCache T) : Prop :=
  (c.cache.map Prod.fst).Nodup ∧ c.cache.length ≤ c.maxSize

theorem makeRoom_keys_subset {T : Type} (c : SimpleCache T) (now : Nat) :
    ∀ k, k ∈ (c.makeRoom now).cache.map Prod.fst → k ∈ c.cache.map Prod.fst :=
  fun _ hk => ((makeRoom_cache_sublist c now).map Prod.fst).subset hk

theorem cacheInv_set {T : Type} {c : SimpleCache T} (key : String) (data : T) (now : Nat)
    (hcap : 1 ≤ c.maxSize) (hinv : CacheInv c) : CacheInv (c.set key data now) := by
  obtain ⟨hnodup, hlen⟩ := hinv
  by_cases hk : hasKey c.cache key
  · constructor
    · simpa [SimpleCache.set, hk, keys_replaceKey] using hnodup
    · simpa [SimpleCache.set, hk, length_replaceKey] using hlen
  · have hfen : findEntry c.cache key = none := by
      cases hfe : findEntry c.cache key with
      | none => rfl
      | some e => exact absurd (by simp [hasKey, hfe]) hk
    have hknotin : key ∉ c.cache.map Prod.fst :=
      (findEntry_eq_none_iff c.cache key).mp hfen
    by_cases hfull : c.maxSize ≤ c.cache.length
    · have hmnodup : ((c.makeRoom now).cache.map Prod.fst).Nodup :=
        hnodup.sublist ((makeRoom_cache_sublist c now).map Prod.fst)
      have hmnotin : key ∉ (c.makeRoom now).cache.map Prod.fst :=
        fun hmem => hknotin (makeRoom_keys_subset c now key hmem)
      have hmlt : (c.makeRoom now).cache.length < c.maxSize :=
        makeRoom_length_lt c now hcap hlen
      constructor
      · simp only [SimpleCache.set, hk, Bool.false_eq_true, if_false, if_pos hfull,
          List.map_append, List.map_cons, List.map_nil]
        simp [List.nodup_append, hmnodup, hmnotin]
      · simp only [SimpleCache.set, hk, Bool.false_eq_true, if_false, if_pos hfull,
          List.length_append, List.length_cons, List.length_nil]
        omega
    · constructor
      · simp only [SimpleCache.set, hk, Bool.false_eq_true, if_false, if_neg hfull,
          List.map_append, List.map_cons, List.map_nil]
        simp [List.nodup_append, hnodup, hknotin]
      · simp only [SimpleCache.set, hk, Bool.false_eq_true, if_false, if_neg hfull,
          List.length_append, List.length_cons, List.length_nil]
        omega

theorem cacheInv_get {T : Type} {c : SimpleCache T} (key : String) (now : Nat)
    (hinv : CacheInv c) : CacheInv ((c.get key now).2) := by
  obtain ⟨hnodup, hlen⟩ := hinv
  unfold SimpleCache.get
  cases hfe : findEntry c.cache key with
  | none => exact ⟨hnodup, hlen⟩
  | some entry =>
    by_cases hex : c.ttl < now - entry.timestamp
    · simp only [if_pos hex]
      refine ⟨hnodup.sublist ((c.cache.filter_sublist).map Prod.fst), ?_⟩
      exact le_trans (List.length_filter_le _ _) hlen
    · simp only [if_neg hex]
      exact ⟨by simpa [keys_touchKey] using hnodup, by simpa [length_touchKey] using hlen⟩

theorem cacheInv_applyOp {T : Type} {c : SimpleCache T} (op : CacheOp T)
    (hcap : 1 ≤ c.maxSize) (hinv : CacheInv c) : CacheInv (applyOp c op) := by
  cases op with
  | setOp key data now => exact cacheInv_set key data now hcap hinv
  | getOp key now => exact cacheInv_get key now hinv
  | clearOp =>
    exact ⟨by simp [applyOp, SimpleCache.clear], by simp [applyOp, SimpleCache.clear]⟩

theorem applyOp_maxSize {T : Type} (c : SimpleCache T) (op : CacheOp T) :
    (applyOp c op).maxSize = c.maxSize := by
  cases op with
  | setOp key data now =>
    by_cases hk : hasKey c.cache key
    · simp [applyOp, SimpleCache.set, hk]
    · simp [applyOp, SimpleCache.set, hk]
  | getOp key now =>
    simp only [applyOp, SimpleCache.get]
    cases findEntry c.cache key with
    | none => rfl
    | some entry =>
      by_cases hex : c.ttl < now - entry.timestamp
      · simp [if_pos hex]
      · simp [if_neg hex]
  | clearOp => rfl

theorem cacheInv_runOps {T : Type} (ops : List (CacheOp T)) (c : SimpleCache T)
    (hcap : 1 ≤ c.maxSize) (hinv : CacheInv c) : CacheInv (runOps c ops) := by
  induction ops generalizing c with
  | nil => exact hinv
  | cons op rest ih =>
    have h1 := cacheInv_applyOp op hcap hinv
    have h2 : 1 ≤ (applyOp c op).maxSize := by rw [applyOp_maxSize]; exact hcap
    exact ih (applyOp c op) h2 h1

/-! ### Search-loop lemmas -/

/-- Every iteration issues at most one oracle call, so a search with `fuel`
remaining iterations issues at most `fuel` calls. -/
theorem searchLoop_calls_le (qf : Nat → Option Nat) (reserveSell spotPrice : Nat)
    (targetBP : Int) :
    ∀ fuel low high best bestDiff,
      (searchLoop qf reserveSell spotPrice targetBP fuel low high best bestDiff).2 ≤ fuel := by
  intro fuel
  induction fuel with
  | zero => intro low high best bestDiff; simp [searchLoop]
  | succ n ih =>
    intro low high best bestDiff
    rw [searchLoop]
    by_cases h1 : low ≤ high
    · rw [if_pos h1]
      dsimp only
      by_cases h2 : (low + high) / 2 = 0 ∨ reserveSell / 2 ≤ (low + high) / 2
      · rw [if_pos h2]
        exact le_trans (ih _ _ _ _) (Nat.le_succ n)
      · rw [if_neg h2]
        cases hq : qf ((low + high) / 2) with
        | none =>
          dsimp only
          exact Nat.succ_le_succ (ih _ _ _ _)
        | some amountOut =>
          dsimp only
          by_cases h3 : amountOut = 0
          · rw [if_pos h3]
            exact Nat.succ_le_succ (ih _ _ _ _)
          · rw [if_neg h3]
            by_cases h4 : spotPrice = 0
            · rw [if_pos h4]
              exact Nat.succ_le_succ (ih _ _ _ _)
            · rw [if_neg h4]
              by_cases h5 : 2 ^ 53 ≤ (impactBPOf spotPrice ((low + high) / 2) amountOut).natAbs
              · rw [if_pos h5]
                exact Nat.succ_le_succ (ih _ _ _ _)
              · rw [if_neg h5]
                by_cases h6 :
                    (impactBPOf spotPrice ((low + high) / 2) amountOut - targetBP).natAbs ≤ 50
                · rw [if_pos h6]
                  omega
                · rw [if_neg h6]
                  by_cases h7 : impactBPOf spotPrice ((low + high) / 2) amountOut < targetBP
                  · rw [if_pos h7]
                    exact Nat.succ_le_succ (ih _ _ _ _)
                  · rw [if_neg h7]
                    exact Nat.succ_le_succ (ih _ _ _ _)
    · rw [if_neg h1]
      exact Nat.zero_le _

/-- The property every recorded `bestResult` candidate satisfies: it is a
genuine oracle evaluation with nonzero output, at a trade size of at least
one raw unit and below half the sell reserve. -/
def GoodQuote (qf : Nat → Option Nat) (reserveSell : Nat) (q : SlippageQuote) : Prop :=
  qf q.sellAmount = some q.buyAmount ∧ q.buyAmount ≠ 0 ∧
    1 ≤ q.sellAmount ∧ q.sellAmount < reserveSell / 2

/-- Invariant of the search loop: if every quote recorded in `best` is a
genuine oracle candidate, so is whatever the loop finally returns. -/
theorem searchLoop_ok_good {qf : Nat → Option Nat} {reserveSell spotPrice : Nat}
    {targetBP : Int} :
    ∀ fuel low high best bestDiff,
      (∀ b, best = some b → GoodQuote qf reserveSell b) →
      ∀ q, (searchLoop qf reserveSell spotPrice targetBP fuel low high best bestDiff).1 = some q →
        GoodQuote qf reserveSell q := by
  intro fuel
  induction fuel with
  | zero =>
    intro low high best bestDiff hbest q h
    exact hbest q (by simpa [searchLoop] using h)
  | succ n ih =>
    intro low high best bestDiff hbest q h
    rw [searchLoop] at h
    by_cases h1 : low ≤ high
    · rw [if_pos h1] at h
      dsimp only at h
      by_cases h2 : (low + high) / 2 = 0 ∨ reserveSell / 2 ≤ (low + high) / 2
      · rw [if_pos h2] at h
        exact ih _ _ _ _ hbest q h
      · rw [if_neg h2] at h
        have hmid1 : 1 ≤ (low + high) / 2 := by
          rcases Nat.eq_zero_or_pos ((low + high) / 2) with hz | hp
          · exact absurd (Or.inl hz) h2
          · exact hp
        have hmid2 : (low + high) / 2 < reserveSell / 2 := by
          rcases Nat.lt_or_ge ((low + high) / 2) (reserveSell / 2) with hlt | hge
          · exact hlt
          · exact absurd (Or.inr hge) h2
        cases hq : qf ((low + high) / 2) with
        | none =>
          rw [hq] at h
          dsimp only at h
          exact ih _ _ _ _ hbest q h
        | some amountOut =>
          rw [hq] at h
          dsimp only at h
          by_cases h3 : amountOut = 0
          · rw [if_pos h3] at h
            dsimp only at h
            exact ih _ _ _ _ hbest q h
          · rw [if_neg h3] at h
            by_cases h4 : spotPrice = 0
            · rw [if_pos h4] at h
              dsimp only at h
              exact ih _ _ _ _ hbest q h
            · rw [if_neg h4] at h
              by_cases h5 : 2 ^ 53 ≤ (impactBPOf spotPrice ((low + high) / 2) amountOut).natAbs
              · rw [if_pos h5] at h
                dsimp only at h
                exact ih _ _ _ _ hbest q h
              · rw [if_neg h5] at h
                by_cases h6 :
                    (impactBPOf spotPrice ((low + high) / 2) amountOut - targetBP).natAbs ≤ 50
                · rw [if_pos h6] at h
                  dsimp only at h
                  obtain rfl : (⟨(low + high) / 2, amountOut⟩ : SlippageQuote) = q := by
                    injection h
                  exact ⟨hq, h3, hmid1, hmid2⟩
                · rw [if_neg h6] at h
                  have hbest1 :
                      ∀ b,
                        (if improvesBest
                              ((impactBPOf spotPrice ((low + high) / 2) amountOut - targetBP).natAbs)
                              bestDiff
                          then some (⟨(low + high) / 2, amountOut⟩ : SlippageQuote)
                          else best) = some b →
                        GoodQuote qf reserveSell b := by
                    intro b hb
                    by_cases himp : improvesBest
                        ((impactBPOf spotPrice ((low + high) / 2) amountOut - targetBP).natAbs)
                        bestDiff
                    · rw [if_pos himp] at hb
                      obtain rfl : (⟨(low + high) / 2, amountOut⟩ : SlippageQuote) = b := by
                        injection hb
                      exact ⟨hq, h3, hmid1, hmid2⟩
                    · rw [if_neg himp] at hb
                      exact hbest b hb
                  by_cases h7 : impactBPOf spotPrice ((low + high) / 2) amountOut < targetBP
                  · rw [if_pos h7] at h
                    dsimp only at h
                    exact ih _ _ _ _ hbest1 q h
                  · rw [if_neg h7] at h
                    dsimp only at h
                    exact ih _ _ _ _ hbest1 q h
    · rw [if_neg h1] at h
      exact hbest q (by simpa using h)

/-- Any quote returned by `calculateSlippageQuote` is a genuine oracle
candidate. -/
theorem calcQuote_good {qf : Nat → Option Nat} {reserveSell reserveBuy : Nat}
    {targetSlippage : ℚ} {d : Nat} {q : SlippageQuote}
    (h : calculateSlippageQuote qf reserveSell reserveBuy targetSlippage d = Except.ok q) :
    GoodQuote qf reserveSell q := by
  unfold calculateSlippageQuote calculateSlippageQuoteAux searchOutcome at h
  by_cases h0 : reserveSell = 0 ∨ reserveBuy = 0
  · rw [if_pos h0] at h
    exact absurd h (by simp)
  · rw [if_neg h0] at h
    by_cases hd : d < 3
    · rw [if_pos hd] at h
      exact absurd h (by simp)
    · rw [if_neg hd] at h
      dsimp only at h
      split at h
      · next q' hsl =>
        obtain rfl : q' = q := by injection h
        exact searchLoop_ok_good 15 _ _ none none (fun b hb => nomatch hb) q' hsl
      · next hsl => exact absurd h (by simp)

/-- Claim C1 (counterexample): with the identity oracle on a balanced pool
and a 10% target, the search never lands inside the ±50 bp band (the
realized impact of every candidate is 0 bp), yet `calculateSlippageQuote`
still returns the best-effort candidate, whose realized impact is 1000 bp
away from the target — far outside the tolerance band — instead of failing
with `NoQuoteFound`. -/
theorem slippage_tolerance_cex :
    calculateSlippageQuote (fun m => some m) 1000000 1000000 (1/10) 3 =
      Except.ok ⟨300000, 300000⟩
    ∧ 50 < (impactBPOf (1000000 * PRECISION_BASE / 1000000) 300000 300000
        - ⌊(1/10 : ℚ) * 10000⌋).natAbs := by
  constructor
  · unfold calculateSlippageQuote calculateSlippageQuoteAux
    norm_num
    decide
  · rw [show (⌊(1/10 : ℚ) * 10000⌋ : Int) = 1000 by norm_num]
    decide

/-- Claim C1 (amended): `calculateSlippageQuote` either fails, or returns a
quote that is a genuine oracle evaluation — nonzero output at a trade size
in `[1, reserveSell/2)`.  The quote's realized price impact may lie outside
the ±50 bp band: when no iteration lands inside the band the closest-seen
best-effort candidate is returned rather than a `NoQuoteFound` failure. -/
theorem slippage_returned_quote_genuine (qf : Nat → Option Nat)
    (reserveSell reserveBuy : Nat) (targetSlippage : ℚ) (d : Nat) (q : SlippageQuote)
    (h : calculateSlippageQuote qf reserveSell reserveBuy targetSlippage d = Except.ok q) :
    qf q.sellAmount = some q.buyAmount ∧ q.buyAmount ≠ 0 ∧
      1 ≤ q.sellAmount ∧ q.sellAmount < reserveSell / 2 :=
  calcQuote_good h

/-- Witness for `slippage_returned_quote_genuine`: the identity-oracle run
above returns the quote `(300000, 300000)`, which is indeed a genuine oracle
candidate. -/
theorem slippage_returned_quote_genuine_witness :
    (fun m => some m : Nat → Option Nat) 300000 = some 300000 ∧ (300000 : Nat) ≠ 0 ∧
      1 ≤ 300000 ∧ 300000 < 1000000 / 2 :=
  slippage_returned_quote_genuine (fun m => some m) 1000000 1000000 (1/10) 3 ⟨300000, 300000⟩
    (by unfold calculateSlippageQuote calculateSlippageQuoteAux; norm_num; decide)

/-- Claim C3: with a zero reserve on either side, `calculateSlippageQuote`
fails with the `ZeroReserves` error and issues zero oracle calls. -/
theorem zero_reserves_fail_fast (qf : Nat → Option Nat) (reserveSell reserveBuy : Nat)
    (targetSlippage : ℚ) (d : Nat) (h : reserveSell = 0 ∨ reserveBuy = 0) :
    calculateSlippageQuote qf reserveSell reserveBuy targetSlippage d =
        Except.error zeroReservesMsg
    ∧ slippageOracleCalls qf reserveSell reserveBuy targetSlippage d = 0 := by
  constructor
  · simp [calculateSlippageQuote, calculateSlippageQuoteAux, if_pos h]
  · simp [slippageOracleCalls, calculateSlippageQuoteAux, if_pos h]

/-- Witness for `zero_reserves_fail_fast` at `reserveSell = 0`. -/
theorem zero_reserves_fail_fast_witness :
    calculateSlippageQuote (fun m => some m) 0 5 (1/100) 18 = Except.error zeroReservesMsg
    ∧ slippageOracleCalls (fun m => some m) 0 5 (1/100) 18 = 0 :=
  zero_reserves_fail_fast (fun m => some m) 0 5 (1/100) 18 (Or.inl rfl)

/-- Claim C8: a `calculateSlippageQuote` run issues at most 15 oracle calls —
the loop runs at most 15 iterations and each iteration issues at most one
`getAmountsOut` call. -/
theorem slippage_oracle_calls_le_15 (qf : Nat → Option Nat) (reserveSell reserveBuy : Nat)
    (targetSlippage : ℚ) (d : Nat) :
    slippageOracleCalls qf reserveSell reserveBuy targetSlippage d ≤ 15 := by
  unfold slippageOracleCalls calculateSlippageQuoteAux searchOutcome
  by_cases h0 : reserveSell = 0 ∨ reserveBuy = 0
  · rw [if_pos h0]
    simp
  · rw [if_neg h0]
    by_cases hd : d < 3
    · rw [if_pos hd]
      simp
    · rw [if_neg hd]
      dsimp only
      exact searchLoop_calls_le _ _ _ _ 15 _ _ _ _

/-- Claim C9: for nonzero reserves (and a representable sell-token decimal
count, `d ≥ 3`), the binary search starts from `low` = 0.001 sell-token
units decimal-scaled (`10^d / 1000`) and `high = reserveSell * p / 100`,
with `p = 60` when the target impact is at least 0.1 and `p = 20`
otherwise. -/
theorem slippage_initial_bounds (qf : Nat → Option Nat) (reserveSell reserveBuy : Nat)
    (targetSlippage : ℚ) (d : Nat) (hs : reserveSell ≠ 0) (hb : reserveBuy ≠ 0)
    (hd : 3 ≤ d) :
    calculateSlippageQuoteAux qf reserveSell reserveBuy targetSlippage d =
      searchOutcome qf reserveSell reserveBuy ⌊targetSlippage * 10000⌋
        (noQuoteFoundMsg targetSlippage) (10 ^ d / 1000)
        (reserveSell * (if (1 : ℚ)/10 ≤ targetSlippage then 60 else 20) / 100) := by
  have hlow : (10 : Nat) ^ d / 1000 = 10 ^ (d - 3) := by
    have h3 : d - 3 + 3 = d := by omega
    rw [← h3, pow_add]
    norm_num
  unfold calculateSlippageQuoteAux
  rw [if_neg (by tauto : ¬ (reserveSell = 0 ∨ reserveBuy = 0)),
    if_neg (by omega : ¬ d < 3), hlow]

/-- Witness for `slippage_initial_bounds` at a concrete pool. -/
theorem slippage_initial_bounds_witness :
    calculateSlippageQuoteAux (fun _ => none) 5 7 (1/100) 3 =
      searchOutcome (fun _ => none) 5 7 ⌊(1/100 : ℚ) * 10000⌋
        (noQuoteFoundMsg (1/100)) (10 ^ 3 / 1000)
        (5 * (if (1 : ℚ)/10 ≤ 1/100 then 60 else 20) / 100) :=
  slippage_initial_bounds (fun _ => none) 5 7 (1/100) 3 (by norm_num) (by norm_num)
    (by norm_num)

/-- Claim C7 (counterexample): with the synthetic constant-product oracle on
the pool `reserveSell = 146112`, `reserveBuy = 184`, the production targets
1% < 10% yield sell amounts 3652 > 2739 — the returned sell amount is not
monotone in the target. -/
theorem slippage_monotone_cex :
    calculateSlippageQuote (cpOracle 146112 184) 146112 184 (1/100) 3 = Except.ok ⟨3652, 4⟩
    ∧ calculateSlippageQuote (cpOracle 146112 184) 146112 184 (1/10) 3 = Except.ok ⟨2739, 3⟩
    ∧ ((1 : ℚ)/100 < 1/10) ∧ (2739 : Nat) < 3652 := by
  refine ⟨?_, ?_, by norm_num, by decide⟩
  · unfold calculateSlippageQuote calculateSlippageQuoteAux
    norm_num
    decide
  · unfold calculateSlippageQuote calculateSlippageQuoteAux
    norm_num
    decide

/-- The price impact the search's oracle produces at trade size `m` (`0`
when the oracle fails, a case the monotonicity hypothesis never reaches). -/
def oracleImpactBP (qf : Nat → Option Nat) (reserveSell reserveBuy m : Nat) : Int :=
  match qf m with
  | none => 0
  | some out => impactBPOf (reserveBuy * PRECISION_BASE / reserveSell) m out

/-- Claim C7 (amended): the returned sell amount is monotone in the target
under the conditions the counterexample forces: the oracle's realized
impact must be non-decreasing in trade size over the searched range, both
runs must return quotes lying inside their ±50 bp tolerance bands, and the
two targets must be more than 100 bp apart (so the bands cannot overlap). -/
theorem slippage_monotone_amended (qf : Nat → Option Nat) (reserveSell reserveBuy : Nat)
    (t1 t2 : ℚ) (d : Nat) (q1 q2 : SlippageQuote)
    (hmono : ∀ n, n < reserveSell / 2 → ∀ m, m ≤ n → 1 ≤ m →
      oracleImpactBP qf reserveSell reserveBuy m ≤ oracleImpactBP qf reserveSell reserveBuy n)
    (hq1 : calculateSlippageQuote qf reserveSell reserveBuy t1 d = Except.ok q1)
    (hq2 : calculateSlippageQuote qf reserveSell reserveBuy t2 d = Except.ok q2)
    (hin1 : (oracleImpactBP qf reserveSell reserveBuy q1.sellAmount - ⌊t1 * 10000⌋).natAbs ≤ 50)
    (hin2 : (oracleImpactBP qf reserveSell reserveBuy q2.sellAmount - ⌊t2 * 10000⌋).natAbs ≤ 50)
    (hgap : ⌊t1 * 10000⌋ + 100 < ⌊t2 * 10000⌋) :
    q1.sellAmount ≤ q2.sellAmount := by
  obtain ⟨-, -, -, hq1lt⟩ := calcQuote_good hq1
  obtain ⟨-, -, hq2ge, -⟩ := calcQuote_good hq2
  by_contra hcon
  have hle : q2.sellAmount ≤ q1.sellAmount := by omega
  have := hmono q1.sellAmount hq1lt q2.sellAmount hle hq2ge
  omega

/-- Witness for `slippage_monotone_amended`: the constant-product pool
`(69, 100000)` with targets 1% and 5% satisfies every hypothesis — the
oracle impact is monotone below half the reserve, both returned quotes
(`(1, 1428)` and `(4, 5479)`) are within their bands — and the sell amounts
are indeed ordered. -/
theorem slippage_monotone_amended_witness :
    ((1 : ℚ)/100 < 1/20) ∧ (1 : Nat) ≤ 4 :=
  ⟨by norm_num,
    slippage_monotone_amended (cpOracle 69 100000) 69 100000 (1/100) (1/20) 3
      ⟨1, 1428⟩ ⟨4, 5479⟩
      (by decide)
      (by unfold calculateSlippageQuote calculateSlippageQuoteAux; norm_num; decide)
      (by unfold calculateSlippageQuote calculateSlippageQuoteAux; norm_num; decide)
      (by rw [show (⌊(1/100 : ℚ) * 10000⌋ : Int) = 100 by norm_num]; decide)
      (by rw [show (⌊(1/20 : ℚ) * 10000⌋ : Int) = 500 by norm_num]; decide)
      (by norm_num)⟩

/-- Claim C2: the fan-in of the three independently-settled slippage
searches succeeds exactly when all three runs succeeded (a response with
fewer than three quotes is never produced), and on any failure the request
fails with the single combined message listing each failed level with its
own error text, joined by `", "`. -/
theorem quotes_aggregation (r1 r5 r10 : Except String SlippageQuote) :
    ((aggregateQuotes r1 r5 r10).isOk ↔ r1.isOk ∧ r5.isOk ∧ r10.isOk)
    ∧ (¬ (r1.isOk ∧ r5.isOk ∧ r10.isOk) →
        aggregateQuotes r1 r5 r10 =
          Except.error ("Failed to calculate slippage quotes. Errors: " ++
            String.intercalate ", " (specFailedEntries r1 r5 r10)))
    ∧ (∀ a b c, aggregateQuotes r1 r5 r10 = Except.ok (a, b, c) →
        r1 = Except.ok a ∧ r5 = Except.ok b ∧ r10 = Except.ok c) := by
  cases r1 <;> cases r5 <;> cases r10 <;>
    simp [aggregateQuotes, collectLevelErrors, specFailedEntries, Except.isOk, Except.toBool]

/-- Witness for `quotes_aggregation`: levels 1% and 10% fail (the latter
with an empty message), 5% succeeds; the combined message enumerates the
two failed levels. -/
theorem quotes_aggregation_witness :
    aggregateQuotes (Except.error "oops") (Except.ok ⟨1, 2⟩) (Except.error "") =
      Except.error
        "Failed to calculate slippage quotes. Errors: 1%: oops, 10%: Unknown error" := by
  have h :=
    (quotes_aggregation (Except.error "oops") (Except.ok ⟨1, 2⟩) (Except.error "")).2.1
      (by simp [Except.isOk, Except.toBool])
  rw [h]
  rfl

/-- Claim C4 (counterexample): the depth check is evaluated on the token0
reserve with a non-strict bar, not on the sell-side reserve with a strict
one.  Here the sell token is token1, 0.1% of the sell-side reserve
(`5·10^15`) does not exceed ten times the minimum floor (`10^16`), so the
claim mandates rejection — but the code accepts the pool, because 0.1% of
the token0 reserve is exactly ten times the floor (and the code also passes
at exact equality, where "exceeds" would fail). -/
theorem depth_check_cex :
    checkReserves (10 ^ 19) (5 * 10 ^ 18) 18 18 false = Except.ok (5 * 10 ^ 18, 10 ^ 19)
    ∧ (5 * 10 ^ 18) / 1000 ≤ 10 * minReserveFloor 18
    ∧ (10 ^ 19) / 1000 = 10 * minReserveFloor 18 := by
  refine ⟨by decide, by decide, by decide⟩

/-- Claim C4 (amended): after reserves are read and before any slippage
search, the depth check requires 0.1% (floor) of the **token0** reserve to
be **at least** ten times token0's minimum reserve floor; every pool
failing that is rejected with the shallow-pool error. -/
theorem depth_check_amended (reserve0 reserve1 d0 d1 : Nat) (sellIsToken0 : Bool)
    (h0 : reserve0 ≠ 0) (h1 : reserve1 ≠ 0) (hd0 : 3 ≤ d0) (hd1 : 3 ≤ d1)
    (hf0 : minReserveFloor d0 ≤ reserve0) (hf1 : minReserveFloor d1 ≤ reserve1)
    (hdepth : reserve0 / 1000 < minReserveFloor d0 * 10) :
    checkReserves reserve0 reserve1 d0 d1 sellIsToken0 = Except.error poolDepthMsg := by
  unfold checkReserves
  rw [if_neg (by tauto : ¬ (reserve0 = 0 ∨ reserve1 = 0)),
    if_neg (by omega : ¬ (d0 < 3 ∨ d1 < 3)),
    if_neg (by omega : ¬ (reserve0 < minReserveFloor d0 ∨ reserve1 < minReserveFloor d1)),
    if_pos hdepth]

/-- Witness for `depth_check_amended`: a pool passing the floors whose
token0 reserve is too shallow for the depth check. -/
theorem depth_check_amended_witness :
    checkReserves (2 * 10 ^ 15) (10 ^ 18) 18 18 true = Except.error poolDepthMsg :=
  depth_check_amended (2 * 10 ^ 15) (10 ^ 18) 18 18 true (by decide) (by decide)
    (by decide) (by decide) (by decide) (by decide) (by decide)

/-- Claim C5 (counterexample): with `capacity = 0` and an empty store, a
`set` of a new key finds the store "at or above capacity" (`0 ≥ 0`) both
before and after the purge, yet evicts nothing — there is no entry to
evict, while the claim demands that at least one be evicted before the
insert — and inserts the new entry anyway. -/
theorem cache_evict_at_least_one_cex :
    ((⟨0, 100, []⟩ : SimpleCache Nat).set "a" 7 5).cache = [("a", ⟨7, 5, 5⟩)]
    ∧ (SimpleCache.makeRoom (⟨0, 100, []⟩ : SimpleCache Nat) 5).cache.length = 0
    ∧ (⟨0, 100, []⟩ : SimpleCache Nat).maxSize ≤
        (SimpleCache.makeRoom (⟨0, 100, []⟩ : SimpleCache Nat) 5).cache.length := by
  refine ⟨by decide, by decide, by decide⟩

/-- Claim C6: `get` immediately after `set` returns the stored value; `get`
on a never-set key returns absent and leaves the cache unchanged; `get`
past the time-to-live returns absent and lazily deletes the entry; on a
hit, `get` returns the data and refreshes the entry's `lastAccessed` to the
current time. -/
theorem cache_get_semantics {T : Type} (c : SimpleCache T) (key : String) (v : T)
    (now : Nat) :
    ((c.set key v now).get key now).1 = some v
    ∧ (findEntry c.cache key = none → c.get key now = (none, c))
    ∧ (∀ e, findEntry c.cache key = some e → c.ttl < now - e.timestamp →
        c.get key now = (none, ⟨c.maxSize, c.ttl, eraseKey c.cache key⟩))
    ∧ (∀ e, findEntry c.cache key = some e → now - e.timestamp ≤ c.ttl →
        c.get key now = (some e.data, ⟨c.maxSize, c.ttl, touchKey c.cache key now⟩)
        ∧ findEntry (touchKey c.cache key now) key = some ⟨e.data, e.timestamp, now⟩) := by
  refine ⟨?_, ?_, ?_, ?_⟩
  · have hfe : findEntry (c.set key v now).cache key = some ⟨v, now, now⟩ := by
      unfold SimpleCache.set
      by_cases hk : hasKey c.cache key
      · rw [if_pos hk]
        exact findEntry_replaceKey_self _ hk
      · rw [if_neg hk]
        dsimp only
        have hnone : findEntry c.cache key = none := by
          cases hfe2 : findEntry c.cache key with
          | none => rfl
          | some e => exact absurd (by simp [hasKey, hfe2]) hk
        by_cases hfull : c.maxSize ≤ c.cache.length
        · rw [if_pos hfull]
          have hm : findEntry (c.makeRoom now).cache key = none := by
            rw [findEntry_eq_none_iff]
            intro hmem
            exact (findEntry_eq_none_iff _ _).mp hnone (makeRoom_keys_subset c now key hmem)
          rw [findEntry_append_of_none _ hm]
          simp [findEntry]
        · rw [if_neg hfull]
          rw [findEntry_append_of_none _ hnone]
          simp [findEntry]
    unfold SimpleCache.get
    rw [hfe]
    simp
  · intro h
    simp [SimpleCache.get, h]
  · intro e he hex
    simp [SimpleCache.get, he, if_pos hex]
  · intro e he hle
    have hnotlt : ¬ c.ttl < now - e.timestamp := by omega
    refine ⟨by simp [SimpleCache.get, he, hnotlt], ?_⟩
    exact findEntry_touchKey_self now he

/-- Witness for `cache_get_semantics`: a fresh `set`/`get` round-trip, and a
`get` past the time-to-live that lazily deletes the entry. -/
theorem cache_get_semantics_witness :
    ((SimpleCache.set (⟨2, 10, []⟩ : SimpleCache Nat) "k" 5 100).get "k" 100).1 = some 5
    ∧ SimpleCache.get (⟨2, 10, [("k", ⟨5, 0, 0⟩)]⟩ : SimpleCache Nat) "k" 11 =
        (none, ⟨2, 10, []⟩) := by
  constructor
  · exact (cache_get_semantics (⟨2, 10, []⟩ : SimpleCache Nat) "k" 5 100).1
  · have h :=
      (cache_get_semantics (⟨2, 10, [("k", ⟨5, 0, 0⟩)]⟩ : SimpleCache Nat) "k" 5 11).2.2.1
        ⟨5, 0, 0⟩ (by decide) (by decide)
    rw [h]
    refine congrArg _ ?_
    decide

/-- `runOps` never changes `maxSize`. -/
theorem runOps_maxSize {T : Type} (ops : List (CacheOp T)) (c : SimpleCache T) :
    (runOps c ops).maxSize = c.maxSize := by
  induction ops generalizing c with
  | nil => rfl
  | cons op rest ih => rw [runOps, ih, applyOp_maxSize]

/-- Claim C10: starting from an empty cache with `capacity ≥ 1`, every
sequence of `set`/`get`/`clear` operations keeps `size() ≤ capacity`; with
`capacity = 0` the invariant fails — a single `set` leaves the store with
one entry, exceeding the capacity. -/
theorem cache_capacity_invariant :
    (∀ (T : Type) (cap ttl : Nat) (ops : List (CacheOp T)), 1 ≤ cap →
      (runOps (⟨cap, ttl, []⟩ : SimpleCache T) ops).size ≤ cap)
    ∧ (runOps (⟨0, 100, []⟩ : SimpleCache Nat) [CacheOp.setOp "a" 7 5]).size = 1
    ∧ (⟨0, 100, []⟩ : SimpleCache Nat).maxSize <
        (runOps (⟨0, 100, []⟩ : SimpleCache Nat) [CacheOp.setOp "a" 7 5]).size := by
  refine ⟨?_, by decide, by decide⟩
  intro T cap ttl ops hcap
  have h := (cacheInv_runOps ops (⟨cap, ttl, []⟩ : SimpleCache T) hcap ⟨by simp, by simp⟩).2
  have hm : (runOps (⟨cap, ttl, []⟩ : SimpleCache T) ops).maxSize = cap :=
    runOps_maxSize ops (⟨cap, ttl, []⟩ : SimpleCache T)
  unfold SimpleCache.size
  omega

/-- Witness for `cache_capacity_invariant`: two inserts into a
single-entry cache stay within capacity. -/
theorem cache_capacity_invariant_witness :
    (runOps (⟨1, 99, []⟩ : SimpleCache Nat)
      [CacheOp.setOp "x" 0 0, CacheOp.setOp "y" 1 1]).size ≤ 1 :=
  cache_capacity_invariant.1 Nat 1 99 [CacheOp.setOp "x" 0 0, CacheOp.setOp "y" 1 1]
    (by norm_num)
